import Mathlib

/-!
Shallow embedding of the aw3d30-parquet pipeline (src/main.rs) and proofs of
the specification's claims about it.

Conventions of the embedding:
* `f64` raster/geotransform arithmetic is modelled over `ℚ`; the affine
  formula only adds and multiplies, which is exact on the rational inputs the
  claims use.
* The local filesystem is an association list from path strings to file
  contents (lists of bytes, modelled as `List Nat`); the newest write shadows
  older entries.
* Fallible external collaborators (the S3 body stream, the GDAL decoder, the
  parquet writer) are parameters: a function for the remote object bytes, and
  booleans for whether the decode / encode steps succeed.
-/

set_option autoImplicit false

namespace AW3D30

/-! ### Coordinate classifier (main.rs lines 56-126, 291) -/

/-- Latitude band: `Lat::South(u8) | Lat::North(u8)` from main.rs. The `u8`
magnitude is modelled as `Nat`; the parser only produces values ≤ 255. -/
inductive Lat where
  | South (x : Nat)
  | North (x : Nat)
deriving DecidableEq, Repr

/-- Longitude band: `Lon::East(u8) | Lon::West(u8)` from main.rs. -/
inductive Lon where
  | East (x : Nat)
  | West (x : Nat)
deriving DecidableEq, Repr

/-- Tile coordinate, `struct Coordinate { lat: Lat, lon: Lon }`. -/
structure Coordinate where
  lat : Lat
  lon : Lon
deriving DecidableEq, Repr

/-- Magnitude of a latitude band. -/
def Lat.mag : Lat → Nat
  | .South x => x
  | .North x => x

/-- Magnitude of a longitude band. -/
def Lon.mag : Lon → Nat
  | .East x => x
  | .West x => x

/-- Region presets, `enum Set { Netherlands, Europe, World }`. -/
inductive Set where
  | Netherlands
  | Europe
  | World
deriving DecidableEq, Repr

/-- Region membership test, `Set::filter` from main.rs lines 66-81. -/
def Set.filter : Set → Coordinate → Bool
  | .Netherlands, c =>
    (match c.lat with | .North y => decide (50 ≤ y) && decide (y ≤ 53) | _ => false)
      && (match c.lon with | .East x => decide (3 ≤ x) && decide (x ≤ 7) | _ => false)
  | .Europe, c =>
    (match c.lat with | .North y => decide (23 ≤ y) && decide (y ≤ 80) | _ => false)
      && ((match c.lon with | .West x => decide (x ≤ 25) | _ => false)
          || (match c.lon with | .East x => decide (x ≤ 49) | _ => false))
  | .World, _ => true

/-! ### The tile-identifier regular expression (main.rs line 291)

The pattern is `ALPSMLC30_(?P<y>[NS])(?P<lat>\d{3})(?P<x>[EW])(?P<lon>\d{3})_DSM`,
searched for at the leftmost matching position of the key. `\d` is modelled as
an ASCII digit: a capture containing a non-ASCII digit would fail the
subsequent `u8` parse anyway, so the composed `parse` is unaffected. -/

/-- Named capture groups of the tile regex: hemisphere letters and the
three digit characters of each magnitude field. -/
structure Caps where
  y : Char
  d1 : Char
  d2 : Char
  d3 : Char
  x : Char
  e1 : Char
  e2 : Char
  e3 : Char
deriving DecidableEq, Repr

/-- ASCII decimal digit test (model of the regex class `\d`). -/
def isDig (c : Char) : Bool := decide ('0' ≤ c) && decide (c ≤ '9')

/-- Numeric value of a digit character. -/
def dVal (c : Char) : Nat := c.toNat - 48

/-- Value of a three-digit capture group. -/
def val3 (d1 d2 d3 : Char) : Nat := 100 * dVal d1 + 10 * dVal d2 + dVal d3

/-- The literal head of the regex, `ALPSMLC30_`. -/
def tileLit : List Char := "ALPSMLC30_".toList

/-- The literal tail of the regex, `_DSM`. -/
def dsmLit : List Char := "_DSM".toList

/-- Strips a literal from the front of a character list, the building block of
the regex matcher. -/
def stripLit : List Char → List Char → Option (List Char)
  | [], cs => some cs
  | _ :: _, [] => none
  | p :: ps, c :: cs => if c = p then stripLit ps cs else none

/-- Matches the tile regex at the head of the character list, returning the
capture groups. -/
def matchAt (cs : List Char) : Option Caps :=
  match stripLit tileLit cs with
  | none => none
  | some rest =>
    match rest with
    | y :: d1 :: d2 :: d3 :: x :: e1 :: e2 :: e3 :: rest2 =>
      if (y == 'N' || y == 'S') && isDig d1 && isDig d2 && isDig d3
          && (x == 'E' || x == 'W') && isDig e1 && isDig e2 && isDig e3
          && (stripLit dsmLit rest2).isSome then
        some ⟨y, d1, d2, d3, x, e1, e2, e3⟩
      else none
    | _ => none

/-- Leftmost search of the tile regex (`Regex::captures`). -/
def searchRe : List Char → Option Caps
  | [] => none
  | c :: cs =>
    match matchAt (c :: cs) with
    | some caps => some caps
    | none => searchRe cs

/-- Rust `str::parse::<u8>` on a three-digit capture: succeeds exactly when
all characters are ASCII digits and the value fits in a `u8`. -/
def parse3 (d1 d2 d3 : Char) : Option Nat :=
  if isDig d1 && isDig d2 && isDig d3 then
    if val3 d1 d2 d3 ≤ 255 then some (val3 d1 d2 d3) else none
  else none

/-- Coordinate extraction from the capture groups,
`impl TryFrom<Captures> for Coordinate` (main.rs lines 101-126), with `Option`
for `Result<_, &str>` (the only error value is `"bad input"`). -/
def tryFrom (cap : Caps) : Option Coordinate :=
  (parse3 cap.d1 cap.d2 cap.d3).bind fun yv =>
    (match cap.y with
     | 'N' => some (Lat.North yv)
     | 'S' => some (Lat.South yv)
     | _ => none).bind fun lat =>
      (parse3 cap.e1 cap.e2 cap.e3).bind fun xv =>
        (match cap.x with
         | 'E' => some (Lon.East xv)
         | 'W' => some (Lon.West xv)
         | _ => none).map fun lon => { lat := lat, lon := lon }

/-- Full identifier classification:
`re.captures(key).and_then(|cap| Coordinate::try_from(cap).ok())`
(main.rs lines 310-311). `none` is the spec's `NotATile`. -/
def parseTile (key : String) : Option Coordinate :=
  (searchRe key.toList).bind tryFrom

/-- The per-entry catalog filter of the listing loop (main.rs lines 309-314):
keep a `(key, size)` entry iff the key parses to a tile whose coordinate
passes the region filter. -/
def keepEntry (set : Set) (e : String × Nat) : Bool :=
  match parseTile e.1 with
  | some c => Set.filter set c
  | none => false

/-! ### Local filesystem model

Files are an association list from path strings to byte contents; the most
recent write shadows older entries, and a `lookup` hit models
`path.exists()` with `metadata().len()` the length of the stored content. -/

/-- The local filesystem state. -/
abbrev FS : Type := List (String × List Nat)

/-- Reads the file at a path, `none` when the path does not exist. -/
def FS.lookup : FS → String → Option (List Nat)
  | [], _ => none
  | (q, c) :: fs, p => if p = q then some c else FS.lookup fs p

/-- Creates or truncates-and-rewrites the file at a path
(`File::create` followed by writing the full content). -/
def FS.write (fs : FS) (p : String) (c : List Nat) : FS := (p, c) :: fs

/-- Splits a character list on a separator character; standard splitting with
`n` separators yielding `n + 1` (possibly empty) segments. -/
def splitOnChar (sep : Char) : List Char → List (List Char)
  | [] => [[]]
  | c :: cs =>
    if c = sep then [] :: splitOnChar sep cs
    else
      match splitOnChar sep cs with
      | [] => [[c]]
      | s :: ss => (c :: s) :: ss

/-- Joins character-list segments with a separator character. -/
def intercalateChar (sep : Char) : List (List Char) → List Char
  | [] => []
  | [s] => s
  | s :: ss => s ++ sep :: intercalateChar sep ss

/-- Last path segment of a key, modelling `Path::new(&key).file_name()` for
keys whose final component is a normal name (empty segments are skipped, as
Rust treats repeated separators). -/
def fileName (key : String) : String :=
  String.mk ((((splitOnChar '/' key.data).filter (fun s => s ≠ [])).getLast?).getD [])

/-- Portion of a file name before its final `.`, modelling
`Path::file_stem` (a lone leading dot does not count as an extension
separator). -/
def fileStem (s : String) : String :=
  String.mk
    (match splitOnChar '.' s.data with
     | [] => s.data
     | [_] => s.data
     | [] :: [_] => s.data
     | parts => intercalateChar '.' parts.dropLast)

/-- Joins a directory and a file name, `dir.join(name)` for a relative
normal `name`. -/
def pathJoin (dir file : String) : String := dir ++ "/" ++ file

/-- Local GeoTIFF path of a key: `tif_dir.join(Path::new(&key).file_name())`
(main.rs line 135). -/
def tifPath (tif_dir key : String) : String := pathJoin tif_dir (fileName key)

/-- Parquet output path of a key:
`parquet_dir.join(input_path.file_stem()).with_extension("parquet")`
(main.rs lines 334-336). `with_extension` itself strips the extension of the
stem it is applied to, hence the double `fileStem`. -/
def outPath (parquet_dir key : String) : String :=
  pathJoin parquet_dir (fileStem (fileStem (fileName key)) ++ ".parquet")

/-! ### Fetch stage (`download_object`, main.rs lines 128-154) -/

/-- Downloads one object. `remote` maps a key to the bytes of the object body.
Returns the local path, the number of network fetches performed (0 or 1), and
the resulting filesystem. The transfer is skipped exactly when a file already
exists at the key-derived path with length equal to `size`. -/
def download_object (remote : String → List Nat) (fs : FS) (key : String)
    (size : Nat) (tif_dir : String) : String × Nat × FS :=
  let path := tifPath tif_dir key
  match FS.lookup fs path with
  | some c =>
    if c.length = size then (path, 0, fs)
    else (path, 1, FS.write fs path (remote key))
  | none => (path, 1, FS.write fs path (remote key))

/-! ### Columnar writer (`write_parquet`, main.rs lines 156-218)

The GDAL decode (`Dataset::open`, `geo_transform`, `rasterband`,
`read_band_as`) and the parquet serialization are external collaborators;
their success is modelled by the booleans `decodeOk` and `encodeOk`, and the
serialized bytes by the abstract `encode` of the input file's content. The
load-bearing structure kept from the source is the order of effects: the
existence skip-check first, all decode steps next, and only then
`std::fs::File::create(output_path)` followed by the fallible writes. -/

/-- One `write_parquet` call. Returns `(succeeded, filesWritten, fs)`.
If the output path exists the call is skipped. A decode failure happens
before the output file is created; an encode failure happens after, leaving
the created (partially written) file behind. -/
def write_parquet (encode : List Nat → List Nat) (fs : FS)
    (input_path output_path : String) (decodeOk encodeOk : Bool) :
    Bool × Nat × FS :=
  if (FS.lookup fs output_path).isSome then (true, 0, fs)
  else if decodeOk then
    let created := FS.write fs output_path []
    if encodeOk then
      (true, 1, FS.write created output_path (encode ((FS.lookup fs input_path).getD [])))
    else (false, 1, created)
  else (false, 0, fs)

/-! ### Pipeline orchestrator (main.rs lines 326-342)

Per-tile stage chains are independent and own distinct paths; the embedding
runs them sequentially. A run where every stage succeeds is modelled by
passing `true` for both collaborator oracles (the source `unwrap`s/aborts on
any stage failure, so a completed run is exactly a run of successes). -/

/-- One tile's stage chain: fetch, then decode+write. -/
def runStep (remote : String → List Nat) (encode : List Nat → List Nat)
    (tif_dir parquet_dir : String) (fs : FS) (e : String × Nat) :
    FS × Nat × Nat :=
  let d := download_object remote fs e.1 e.2 tif_dir
  let w := write_parquet encode d.2.2 d.1 (outPath parquet_dir e.1) true true
  (w.2.2, d.2.1, w.2.1)

/-- The whole batch over a catalog of `(key, size)` entries. Returns the
final filesystem, the total number of network fetches, and the total number
of output files written. -/
def runPipeline (remote : String → List Nat) (encode : List Nat → List Nat)
    (tif_dir parquet_dir : String) : List (String × Nat) → FS → FS × Nat × Nat
  | [], fs => (fs, 0, 0)
  | e :: rest, fs =>
    let s := runStep remote encode tif_dir parquet_dir fs e
    let r := runPipeline remote encode tif_dir parquet_dir rest s.1
    (r.1, s.2.1 + r.2.1, s.2.2 + r.2.2)

/-! ### Raster transform (main.rs lines 165-184)

The six geotransform coefficients are `gt[0] .. gt[5]` of the GDAL affine
transform; the spec names them `(originX, pxW, rotX, originY, rotY, pxH)` in
that array order. The elevation samples are band 1 read as a flat row-major
`i32` array of length `width × height` (the decoding collaborator's
contract); the loop walks `chunks_exact(x_size)` rows (row index `y` outer)
and the row's samples (column index `x` inner), pushing
`lon = gt[0] + x·gt[1] + y·gt[2]`, `lat = gt[3] + x·gt[4] + y·gt[5]`, and
the sample. `chunks_exact` requires a positive chunk size. -/

/-- The affine geotransform coefficients, in array order `gt[0] .. gt[5]`. -/
structure GeoTransform where
  originX : ℚ
  pxW : ℚ
  rotX : ℚ
  originY : ℚ
  rotY : ℚ
  pxH : ℚ
deriving DecidableEq, Repr

/-- The three parallel column vectors built by `write_parquet`'s decode loop,
in the order the source declares and later writes them. -/
structure PixelRecord where
  lat : List ℚ
  lon : List ℚ
  elevation : List Int
deriving DecidableEq, Repr

/-- The `chunks_exact(x_size).enumerate()` loop: `rows` counts the remaining
full chunks, `y` is the current row index. Each step processes one row of `W`
samples and recurses past it; `chunks_exact(W)` yields exactly
`data.length / W` full chunks, dropping any shorter leftover, which is how
`transform` instantiates `rows`. -/
def transformRows (gt : GeoTransform) (W : Nat) : Nat → Nat → List Int → PixelRecord
  | 0, _, _ => { lat := [], lon := [], elevation := [] }
  | rows + 1, y, data =>
    let rest := transformRows gt W rows (y + 1) (data.drop W)
    { lat := (List.range W).map
        (fun x : Nat => gt.originY + (x : ℚ) * gt.rotY + (y : ℚ) * gt.pxH) ++ rest.lat,
      lon := (List.range W).map
        (fun x : Nat => gt.originX + (x : ℚ) * gt.pxW + (y : ℚ) * gt.rotX) ++ rest.lon,
      elevation := data.take W ++ rest.elevation }

/-- The full per-pixel coordinate reconstruction for a raster of width `W`
whose band-1 samples are `data`. -/
def transform (gt : GeoTransform) (W : Nat) (data : List Int) : PixelRecord :=
  transformRows gt W (data.length / W) 0 data

/-! ### Catalog scanner (main.rs lines 293-324) -/

/-- One page of `ListObjectsV2Output`: the entries, the continuation token,
and the truncation flag. -/
structure ListOutput where
  contents : List (String × Nat)
  nextToken : Option String
  isTruncated : Option Bool

/-- The listing loop of `main`: issue the listing call, extend the collected
objects with the filtered page contents, store the returned continuation
token into the request, and stop exactly when the truncation flag is
`Some(false)`. `fuel` bounds the number of pages requested (the source loop
would keep polling a provider that never reports `false`). -/
def listLoop (provider : Option String → ListOutput)
    (filt : String × Nat → Bool) : Nat → Option String → List (String × Nat)
  | 0, _ => []
  | fuel + 1, tok =>
    let out := provider tok
    let objs := out.contents.filter filt
    if out.isTruncated = some false then objs
    else objs ++ listLoop provider filt fuel out.nextToken

/-- The scanner as `main` runs it: start with no continuation token and keep
only entries passing the region filter. -/
def listObjects (set : Set) (provider : Option String → ListOutput)
    (fuel : Nat) : List (String × Nat) :=
  listLoop provider (keepEntry set) fuel none

/-! ### Specification-side predicates (for refinement comparisons) -/

/-- Spec-side predicate for the Netherlands preset, following the spec's
words: passes exactly when `lat` is North with magnitude in `[50,53]` and
`lon` is East with magnitude in `[3,7]`. -/
def specNetherlands (c : Coordinate) : Prop :=
  (∃ y, c.lat = Lat.North y ∧ 50 ≤ y ∧ y ≤ 53) ∧
    (∃ x, c.lon = Lon.East x ∧ 3 ≤ x ∧ x ≤ 7)

/-- Spec-side predicate for the Europe preset, following the spec's words:
a North latitude interval combined with an OR over two longitude bands,
West magnitude ≤ 25 or East magnitude ≤ 49. -/
def specEurope (c : Coordinate) : Prop :=
  (∃ y, c.lat = Lat.North y ∧ 23 ≤ y ∧ y ≤ 80) ∧
    ((∃ x, c.lon = Lon.West x ∧ x ≤ 25) ∨ (∃ x, c.lon = Lon.East x ∧ x ≤ 49))

/-- Structural characterization of a successful parse: the key contains the
literal tile pattern, and the coordinate's fields are exactly the hemisphere
letters and three-digit magnitudes captured there (never partial or invented
values). -/
def IsTilePattern (key : String) (c : Coordinate) : Prop :=
  ∃ pre y d1 d2 d3 x e1 e2 e3 rest,
    key.toList = pre ++ tileLit ++ [y, d1, d2, d3, x, e1, e2, e3] ++ dsmLit ++ rest ∧
    isDig d1 = true ∧ isDig d2 = true ∧ isDig d3 = true ∧
    isDig e1 = true ∧ isDig e2 = true ∧ isDig e3 = true ∧
    val3 d1 d2 d3 ≤ 255 ∧ val3 e1 e2 e3 ≤ 255 ∧
    ((y = 'N' ∧ c.lat = Lat.North (val3 d1 d2 d3)) ∨
      (y = 'S' ∧ c.lat = Lat.South (val3 d1 d2 d3))) ∧
    ((x = 'E' ∧ c.lon = Lon.East (val3 e1 e2 e3)) ∨
      (x = 'W' ∧ c.lon = Lon.West (val3 e1 e2 e3)))

/-- State in which a catalog entry's tile has been fully processed: its local
GeoTIFF exists with the catalog-reported size and its parquet output exists.
Both skip-checks pass in such a state. -/
def goodState (tif_dir parquet_dir : String) (fs : FS) (e : String × Nat) : Prop :=
  (∃ c, FS.lookup fs (tifPath tif_dir e.1) = some c ∧ c.length = e.2) ∧
    (FS.lookup fs (outPath parquet_dir e.1)).isSome = true

/-! ## Theorems -/

/-! ### Soundness of the regex matcher and the capture parser -/

/-- Stripping a literal succeeds exactly on lists starting with it. -/
theorem stripLit_eq : ∀ (p cs r : List Char), stripLit p cs = some r → cs = p ++ r := by
  intro p
  induction p with
  | nil => intro cs r h; simpa [stripLit] using h
  | cons a p ih =>
    intro cs r h
    cases cs with
    | nil => simp [stripLit] at h
    | cons c cs =>
      simp only [stripLit] at h
      split at h
      · next heq => subst heq; simpa using ih cs r h
      · exact absurd h (by simp)

/-- A head match decomposes the input into the full structural pattern. -/
theorem matchAt_sound (cs : List Char) (caps : Caps) (h : matchAt cs = some caps) :
    ∃ rest,
      cs = tileLit ++ [caps.y, caps.d1, caps.d2, caps.d3, caps.x, caps.e1, caps.e2, caps.e3]
          ++ dsmLit ++ rest ∧
        (caps.y = 'N' ∨ caps.y = 'S') ∧
        isDig caps.d1 = true ∧ isDig caps.d2 = true ∧ isDig caps.d3 = true ∧
        (caps.x = 'E' ∨ caps.x = 'W') ∧
        isDig caps.e1 = true ∧ isDig caps.e2 = true ∧ isDig caps.e3 = true := by
  cases hs : stripLit tileLit cs with
  | none => simp [matchAt, hs] at h
  | some rest1 =>
    have hcs := stripLit_eq _ _ _ hs
    rcases rest1 with _ | ⟨y, _ | ⟨d1, _ | ⟨d2, _ | ⟨d3, _ | ⟨x, _ | ⟨e1, _ | ⟨e2, _ | ⟨e3, rest2⟩⟩⟩⟩⟩⟩⟩⟩
    · simp [matchAt, hs] at h
    · simp [matchAt, hs] at h
    · simp [matchAt, hs] at h
    · simp [matchAt, hs] at h
    · simp [matchAt, hs] at h
    · simp [matchAt, hs] at h
    · simp [matchAt, hs] at h
    · simp [matchAt, hs] at h
    · simp only [matchAt, hs] at h
      split at h
      · next hguard =>
        injection h with h'
        subst h'
        simp only [Bool.and_eq_true, Bool.or_eq_true, beq_iff_eq,
          Option.isSome_iff_exists] at hguard
        obtain ⟨⟨⟨⟨⟨⟨⟨⟨hy, hd1⟩, hd2⟩, hd3⟩, hx⟩, he1⟩, he2⟩, he3⟩, r2, hr2⟩ := hguard
        refine ⟨r2, ?_, hy, hd1, hd2, hd3, hx, he1, he2, he3⟩
        rw [hcs, stripLit_eq _ _ _ hr2]
        simp
      · exact absurd h (by simp)

/-- A successful search is a head match at some split of the input. -/
theorem searchRe_sound : ∀ (cs : List Char) (caps : Caps), searchRe cs = some caps →
    ∃ pre tail, cs = pre ++ tail ∧ matchAt tail = some caps := by
  intro cs
  induction cs with
  | nil => intro caps h; simp [searchRe] at h
  | cons c cs ih =>
    intro caps h
    simp only [searchRe] at h
    cases hm : matchAt (c :: cs) with
    | some caps' =>
      rw [hm] at h
      injection h with h'
      exact ⟨[], c :: cs, by simp, by rw [hm, h']⟩
    | none =>
      rw [hm] at h
      obtain ⟨pre, tail, hpre, hmt⟩ := ih caps h
      exact ⟨c :: pre, tail, by simp [hpre], hmt⟩

/-- A successful `u8` field parse yields the digit value, bounded by 255. -/
theorem parse3_sound (d1 d2 d3 : Char) (v : Nat) (h : parse3 d1 d2 d3 = some v) :
    isDig d1 = true ∧ isDig d2 = true ∧ isDig d3 = true ∧ v = val3 d1 d2 d3 ∧ v ≤ 255 := by
  unfold parse3 at h
  split at h
  · next hd =>
    split at h
    · next hv =>
      injection h with h'
      simp only [Bool.and_eq_true] at hd
      exact ⟨hd.1.1, hd.1.2, hd.2, h'.symm, h' ▸ hv⟩
    · exact absurd h (by simp)
  · exact absurd h (by simp)

/-- A coordinate built from captures carries exactly the captured hemisphere
letters and field values. -/
theorem tryFrom_sound (caps : Caps) (c : Coordinate) (h : tryFrom caps = some c) :
    ∃ yv xv, parse3 caps.d1 caps.d2 caps.d3 = some yv ∧
      parse3 caps.e1 caps.e2 caps.e3 = some xv ∧
      ((caps.y = 'N' ∧ c.lat = Lat.North yv) ∨ (caps.y = 'S' ∧ c.lat = Lat.South yv)) ∧
      ((caps.x = 'E' ∧ c.lon = Lon.East xv) ∨ (caps.x = 'W' ∧ c.lon = Lon.West xv)) := by
  unfold tryFrom at h
  simp only [Option.bind_eq_some, Option.map_eq_some'] at h
  obtain ⟨yv, hyv, lat, hlat, xv, hxv, lon, hlon, hc⟩ := h
  refine ⟨yv, xv, hyv, hxv, ?_, ?_⟩
  · split at hlat
    · next => left; injection hlat with h'; subst hc; exact ⟨by assumption, by rw [← h']⟩
    · next => right; injection hlat with h'; subst hc; exact ⟨by assumption, by rw [← h']⟩
    · exact absurd hlat (by simp)
  · split at hlon
    · next => left; injection hlon with h'; subst hc; exact ⟨by assumption, by rw [← h']⟩
    · next => right; injection hlon with h'; subst hc; exact ⟨by assumption, by rw [← h']⟩
    · exact absurd hlon (by simp)

/-- Every entry collected by the listing loop passes the catalog filter. -/
theorem listLoop_mem (provider : Option String → ListOutput)
    (filt : String × Nat → Bool) :
    ∀ (fuel : Nat) (tok : Option String) (e : String × Nat),
      e ∈ listLoop provider filt fuel tok → filt e = true := by
  intro fuel
  induction fuel with
  | zero => intro tok e h; simp [listLoop] at h
  | succ fuel ih =>
    intro tok e h
    simp only [listLoop] at h
    split at h
    · exact (List.mem_filter.mp h).2
    · rcases List.mem_append.mp h with h' | h'
      · exact (List.mem_filter.mp h').2
      · exact ih _ e h'

/-- C8: every successful parse corresponds to an exact structural occurrence
of the tile pattern in the key — a key that does not contain the pattern can
only parse to `none` (`NotATile`), never to a partial or garbage coordinate —
and catalog entries whose key does not parse to a tile never appear in the
scanner's output: they are silently filtered, not errors. -/
theorem c8_not_a_tile :
    (∀ (key : String) (c : Coordinate), parseTile key = some c → IsTilePattern key c) ∧
      (∀ (set : Set) (provider : Option String → ListOutput) (fuel : Nat)
        (e : String × Nat), e ∈ listObjects set provider fuel → parseTile e.1 ≠ none) := by
  constructor
  · intro key c h
    unfold parseTile at h
    simp only [Option.bind_eq_some] at h
    obtain ⟨caps, hsearch, htry⟩ := h
    obtain ⟨pre, tail, hsplit, hmatch⟩ := searchRe_sound _ _ hsearch
    obtain ⟨rest, htail, _, _, _, _, _, _, _, _⟩ := matchAt_sound _ _ hmatch
    obtain ⟨yv, xv, hp3y, hp3x, hlat, hlon⟩ := tryFrom_sound _ _ htry
    obtain ⟨hyd1, hyd2, hyd3, hyval, hybound⟩ := parse3_sound _ _ _ _ hp3y
    obtain ⟨hxd1, hxd2, hxd3, hxval, hxbound⟩ := parse3_sound _ _ _ _ hp3x
    subst hyval
    subst hxval
    refine ⟨pre, caps.y, caps.d1, caps.d2, caps.d3, caps.x, caps.e1, caps.e2, caps.e3, rest,
      ?_, hyd1, hyd2, hyd3, hxd1, hxd2, hxd3, hybound, hxbound, hlat, hlon⟩
    rw [hsplit, htail]
    simp
  · intro set provider fuel e hmem heq
    have hkeep := listLoop_mem provider (keepEntry set) fuel none e hmem
    rw [keepEntry, heq] at hkeep
    simp at hkeep

/-- C8 witness: a valid southern/western identifier parses to exactly its
captured fields, and an entry carrying it survives the catalog filter under
the World preset, so its key must parse. -/
theorem c8_not_a_tile_witness :
    IsTilePattern "ALPSMLC30_S011W022_DSM" ⟨Lat.South 11, Lon.West 22⟩ ∧
      parseTile "ALPSMLC30_S011W022_DSM" ≠ none :=
  ⟨c8_not_a_tile.1 "ALPSMLC30_S011W022_DSM" ⟨Lat.South 11, Lon.West 22⟩ (by decide),
    c8_not_a_tile.2 Set.World
      (fun _ => ⟨[("ALPSMLC30_S011W022_DSM", 1)], none, some false⟩) 1
      ("ALPSMLC30_S011W022_DSM", 1) (by decide)⟩

/-- C10 counterexample: the identifier `ALPSMLC30_N200E200_DSM` parses
successfully to a coordinate whose latitude magnitude is 200 > 90 and whose
longitude magnitude is 200 > 180 — the parser enforces no geographic bounds,
only what fits in a `u8`. -/
theorem c10_counterexample :
    parseTile "ALPSMLC30_N200E200_DSM" = some ⟨Lat.North 200, Lon.East 200⟩ ∧
      90 < (Lat.North 200).mag ∧ 180 < (Lon.East 200).mag := by decide

/-- C10 (amended): every coordinate produced by a successful parse has
latitude and longitude magnitudes at most 255 — the bound actually enforced
is the `u8` parse of a three-digit field, not the geographic 90/180 bounds. -/
theorem c10_magnitude_bound (key : String) (c : Coordinate)
    (h : parseTile key = some c) : c.lat.mag ≤ 255 ∧ c.lon.mag ≤ 255 := by
  unfold parseTile at h
  simp only [Option.bind_eq_some] at h
  obtain ⟨caps, _, htry⟩ := h
  obtain ⟨yv, xv, hp3y, hp3x, hlat, hlon⟩ := tryFrom_sound _ _ htry
  have hyb := (parse3_sound _ _ _ _ hp3y).2.2.2.2
  have hxb := (parse3_sound _ _ _ _ hp3x).2.2.2.2
  constructor
  · rcases hlat with ⟨_, hl⟩ | ⟨_, hl⟩ <;> rw [hl] <;> simpa [Lat.mag] using hyb
  · rcases hlon with ⟨_, hl⟩ | ⟨_, hl⟩ <;> rw [hl] <;> simpa [Lon.mag] using hxb

/-- C10 witness: a southern/western identifier parses and its magnitudes
satisfy the `u8` bound. -/
theorem c10_magnitude_bound_witness :
    parseTile "ALPSMLC30_S010W020_DSM" = some ⟨Lat.South 10, Lon.West 20⟩ ∧
      (Lat.South 10).mag ≤ 255 ∧ (Lon.West 20).mag ≤ 255 :=
  ⟨by decide,
    c10_magnitude_bound "ALPSMLC30_S010W020_DSM" ⟨Lat.South 10, Lon.West 20⟩ (by decide)⟩

/-- C9: every region preset's `matches` predicate is a rectangular band test
on the signed coordinate: the Netherlands preset passes exactly when lat is
North in [50,53] and lon is East in [3,7]; the Europe preset combines a North
latitude interval with an OR over two longitude bands (West ≤ 25 or
East ≤ 49); and the World preset is constantly true. -/
theorem c9_region_presets (c : Coordinate) :
    (Set.filter Set.Netherlands c = true ↔ specNetherlands c) ∧
      (Set.filter Set.Europe c = true ↔ specEurope c) ∧
      Set.filter Set.World c = true := by
  obtain ⟨lat, lon⟩ := c
  cases lat <;> cases lon <;>
    simp [Set.filter, specNetherlands, specEurope]

/-- C4 counterexample: the identifier `ALPSMLC30_N52E004_DSM` from the claim,
whose latitude field has only two digits, does not parse to a coordinate at
all: the tile regex requires exactly three latitude digits. -/
theorem c4_counterexample : parseTile "ALPSMLC30_N52E004_DSM" = none := by decide

/-- C4 (amended): the parse operation accepts tile identifiers whose latitude
field has exactly 3 digits (and rejects 2-digit latitude fields); the
identifier `ALPSMLC30_N052E004_DSM` parses to North(52)/East(4), and that
coordinate satisfies the preset whose band is lat North in [50,53] and lon
East in [3,7]. -/
theorem c4_three_digit_latitude :
    parseTile "ALPSMLC30_N052E004_DSM" = some ⟨Lat.North 52, Lon.East 4⟩ ∧
      Set.filter Set.Netherlands ⟨Lat.North 52, Lon.East 4⟩ = true ∧
      parseTile "ALPSMLC30_N52E004_DSM" = none := by decide

/-- C6: the code contradicts the claim. When the output path does not yet
exist, the decode succeeds, and the parquet write then fails, the failed call
leaves a (partially written) file at the output path — `File::create` runs
before any fallible write, and nothing removes the file on failure — so a
later run's exists-based skip-check treats the partial output as complete. -/
theorem c6_partial_write_leaves_file :
    (write_parquet (fun c => c) [] "tif/x.tif" "parquet/x.parquet" true false).1 = false ∧
      (FS.lookup (write_parquet (fun c => c) [] "tif/x.tif" "parquet/x.parquet" true false).2.2
          "parquet/x.parquet").isSome = true := by decide

/-- C7: the listing loop re-issues the paginated call with the latest
continuation token until the truncation flag is false and concatenates the
pages in provider order; a catalog split across two pages (token on page 1,
truncation false on page 2) yields exactly what a single non-paginated
listing of the same catalog produces. -/
theorem c7_pagination (c₁ c₂ : List (String × Nat)) (filt : String × Nat → Bool)
    (tok : String) :
    listLoop
        (fun t => if t = some tok then ⟨c₂, none, some false⟩ else ⟨c₁, some tok, some true⟩)
        filt 2 none
      = listLoop (fun _ => ⟨c₁ ++ c₂, none, some false⟩) filt 1 none ∧
    listLoop (fun _ => ⟨c₁ ++ c₂, none, some false⟩) filt 1 none
      = (c₁ ++ c₂).filter filt := by
  simp [listLoop, List.filter_append]

/-- C3: for every key, expected size, and local directory, if a file already
exists at the key-derived local path with size equal to the expected size,
the fetch performs no network transfer and returns that path with the
filesystem unchanged; otherwise it performs one transfer, writing the remote
body to that path, and returns the path. -/
theorem c3_fetch_skip (remote : String → List Nat) (fs : FS) (key : String)
    (size : Nat) (tif_dir : String) :
    (∀ c, FS.lookup fs (tifPath tif_dir key) = some c → c.length = size →
        download_object remote fs key size tif_dir = (tifPath tif_dir key, 0, fs)) ∧
      ((∀ c, FS.lookup fs (tifPath tif_dir key) = some c → c.length ≠ size) →
        download_object remote fs key size tif_dir
          = (tifPath tif_dir key, 1,
              FS.write fs (tifPath tif_dir key) (remote key))) := by
  constructor
  · intro c hc hlen
    simp [download_object, hc, hlen]
  · intro h
    cases hc : FS.lookup fs (tifPath tif_dir key) with
    | none => simp [download_object, hc]
    | some c => simp [download_object, hc, h c hc]

/-- C3 witness: a filesystem already holding a two-byte file at the derived
path of key `k.tif` with expected size 2 skips the transfer. -/
theorem c3_fetch_skip_witness :
    FS.lookup [("tif/k.tif", [1, 2])] (tifPath "tif" "k.tif") = some [1, 2] ∧
      download_object (fun _ => [9]) [("tif/k.tif", [1, 2])] "k.tif" 2 "tif"
        = (tifPath "tif" "k.tif", 0, [("tif/k.tif", [1, 2])]) :=
  ⟨by decide,
    (c3_fetch_skip (fun _ => [9]) [("tif/k.tif", [1, 2])] "k.tif" 2 "tif").1
      [1, 2] (by decide) (by decide)⟩

/-! ### Idempotence of the pipeline (C2) -/

/-- Reading through a write hits the write exactly at its path. -/
theorem FS.lookup_write (fs : FS) (q p : String) (c : List Nat) :
    FS.lookup (FS.write fs q c) p = if p = q then some c else FS.lookup fs p := rfl

/-- A fetch can only change the file at its own key-derived path. -/
theorem download_object_frame (remote : String → List Nat) (fs : FS) (key : String)
    (size : Nat) (tif_dir p : String) (h : p ≠ tifPath tif_dir key) :
    FS.lookup (download_object remote fs key size tif_dir).2.2 p = FS.lookup fs p := by
  unfold download_object
  cases hc : FS.lookup fs (tifPath tif_dir key) with
  | none => simp [hc, FS.lookup_write, h]
  | some c =>
    by_cases hl : c.length = size
    · simp [hc, hl]
    · simp [hc, hl, FS.lookup_write, h]

/-- A write call can only change the file at its own output path. -/
theorem write_parquet_frame (encode : List Nat → List Nat) (fs : FS)
    (ip op : String) (dOk eOk : Bool) (p : String) (h : p ≠ op) :
    FS.lookup (write_parquet encode fs ip op dOk eOk).2.2 p = FS.lookup fs p := by
  unfold write_parquet
  by_cases hx : (FS.lookup fs op).isSome
  · simp [hx]
  · cases dOk with
    | false => simp [hx]
    | true =>
      cases eOk with
      | false => simp [hx, FS.lookup_write, h]
      | true => simp [hx, FS.lookup_write, h]

/-- One tile's stage chain only touches that tile's two paths. -/
theorem runStep_frame (remote : String → List Nat) (encode : List Nat → List Nat)
    (tif_dir parquet_dir : String) (fs : FS) (e : String × Nat) (p : String)
    (h1 : p ≠ tifPath tif_dir e.1) (h2 : p ≠ outPath parquet_dir e.1) :
    FS.lookup (runStep remote encode tif_dir parquet_dir fs e).1 p = FS.lookup fs p := by
  unfold runStep
  rw [write_parquet_frame _ _ _ _ _ _ _ h2, download_object_frame _ _ _ _ _ _ h1]

/-- The batch only touches the paths derived from its catalog. -/
theorem runPipeline_frame (remote : String → List Nat) (encode : List Nat → List Nat)
    (tif_dir parquet_dir : String) :
    ∀ (catalog : List (String × Nat)) (fs : FS) (p : String),
      (∀ e ∈ catalog, p ≠ tifPath tif_dir e.1 ∧ p ≠ outPath parquet_dir e.1) →
      FS.lookup (runPipeline remote encode tif_dir parquet_dir catalog fs).1 p
        = FS.lookup fs p := by
  intro catalog
  induction catalog with
  | nil => intro fs p _; rfl
  | cons a rest ih =>
    intro fs p h
    have ha := h a (by simp)
    simp only [runPipeline]
    rw [ih _ p (fun e he => h e (by simp [he]))]
    exact runStep_frame _ _ _ _ _ _ _ ha.1 ha.2

/-- After a fetch, the key-derived path holds a file of the expected size
(when the remote body has the catalog-reported size). -/
theorem download_object_good (remote : String → List Nat) (fs : FS) (key : String)
    (size : Nat) (tif_dir : String) (hsize : (remote key).length = size) :
    ∃ c, FS.lookup (download_object remote fs key size tif_dir).2.2 (tifPath tif_dir key)
        = some c ∧ c.length = size := by
  unfold download_object
  cases hc : FS.lookup fs (tifPath tif_dir key) with
  | none => exact ⟨remote key, by simp [hc, FS.lookup_write], hsize⟩
  | some c =>
    by_cases hl : c.length = size
    · exact ⟨c, by simp [hc, hl], hl⟩
    · exact ⟨remote key, by simp [hc, hl, FS.lookup_write], hsize⟩

/-- After a successful write call, the output path exists. -/
theorem write_parquet_good (encode : List Nat → List Nat) (fs : FS) (ip op : String) :
    (FS.lookup (write_parquet encode fs ip op true true).2.2 op).isSome = true := by
  unfold write_parquet
  by_cases hx : (FS.lookup fs op).isSome
  · simp [hx]
  · simp [hx, FS.lookup_write]

/-- One completed stage chain leaves its tile fully processed. -/
theorem runStep_good (remote : String → List Nat) (encode : List Nat → List Nat)
    (tif_dir parquet_dir : String) (fs : FS) (e : String × Nat)
    (hsize : (remote e.1).length = e.2)
    (hne : tifPath tif_dir e.1 ≠ outPath parquet_dir e.1) :
    goodState tif_dir parquet_dir (runStep remote encode tif_dir parquet_dir fs e).1 e := by
  unfold runStep goodState
  constructor
  · obtain ⟨c, hc, hl⟩ := download_object_good remote fs e.1 e.2 tif_dir hsize
    exact ⟨c, by rw [write_parquet_frame _ _ _ _ _ _ _ hne]; exact hc, hl⟩
  · exact write_parquet_good _ _ _ _

/-- A completed first run leaves every catalog entry fully processed, given
that the remote bodies have their catalog-reported sizes and the key-derived
paths of distinct tiles do not collide. -/
theorem runPipeline_good (remote : String → List Nat) (encode : List Nat → List Nat)
    (tif_dir parquet_dir : String) :
    ∀ (catalog : List (String × Nat)) (fs : FS),
      (∀ e ∈ catalog, (remote e.1).length = e.2) →
      (∀ e ∈ catalog, ∀ e' ∈ catalog,
        tifPath tif_dir e.1 ≠ outPath parquet_dir e'.1) →
      List.Pairwise (fun a b => tifPath tif_dir a.1 ≠ tifPath tif_dir b.1 ∧
        outPath parquet_dir a.1 ≠ outPath parquet_dir b.1) catalog →
      ∀ e ∈ catalog, goodState tif_dir parquet_dir
        (runPipeline remote encode tif_dir parquet_dir catalog fs).1 e := by
  intro catalog
  induction catalog with
  | nil => intro fs _ _ _ e he; simp at he
  | cons a rest ih =>
    intro fs hsize hcross hpair e he
    have hpc := List.pairwise_cons.mp hpair
    simp only [runPipeline]
    rcases List.mem_cons.mp he with rfl | he'
    · have hg := runStep_good remote encode tif_dir parquet_dir fs e
        (hsize e (by simp)) (hcross e (by simp) e (by simp))
      have ht := runPipeline_frame remote encode tif_dir parquet_dir rest
        (runStep remote encode tif_dir parquet_dir fs e).1 (tifPath tif_dir e.1)
        (fun e' he' => ⟨(hpc.1 e' he').1, hcross e (by simp) e' (by simp [he'])⟩)
      have ho := runPipeline_frame remote encode tif_dir parquet_dir rest
        (runStep remote encode tif_dir parquet_dir fs e).1 (outPath parquet_dir e.1)
        (fun e' he' =>
          ⟨(hcross e' (by simp [he']) e (by simp)).symm, (hpc.1 e' he').2⟩)
      unfold goodState at hg ⊢
      rw [ht, ho]
      exact hg
    · exact ih _ (fun x hx => hsize x (by simp [hx]))
        (fun x hx x' hx' => hcross x (by simp [hx]) x' (by simp [hx'])) hpc.2 e he'

/-- A run over a catalog whose every entry is already fully processed does
nothing: no fetches, no writes, filesystem untouched. -/
theorem runPipeline_skip (remote : String → List Nat) (encode : List Nat → List Nat)
    (tif_dir parquet_dir : String) :
    ∀ (catalog : List (String × Nat)) (fs : FS),
      (∀ e ∈ catalog, goodState tif_dir parquet_dir fs e) →
      runPipeline remote encode tif_dir parquet_dir catalog fs = (fs, 0, 0) := by
  intro catalog
  induction catalog with
  | nil => intro fs _; rfl
  | cons a rest ih =>
    intro fs h
    obtain ⟨⟨c, hc, hl⟩, ho⟩ := h a (by simp)
    have hstep : runStep remote encode tif_dir parquet_dir fs a = (fs, 0, 0) := by
      unfold runStep download_object write_parquet
      simp [hc, hl, ho]
    simp only [runPipeline]
    rw [hstep]
    rw [ih fs (fun e he => h e (by simp [he]))]
    rfl

/-- C2: running the pipeline a second time over an unchanged catalog and the
intact output of a completed first run performs zero network fetches and zero
output-file writes, leaving every local file unchanged — every fetch is
skipped by the exists-and-size-matches check and every write by the
output-path-exists check. Hypotheses: remote bodies have their
catalog-reported sizes, and key-derived paths of distinct entries do not
collide (the spec's "each tile owns a distinct key-derived path"). -/
theorem c2_second_run_pure_skip (remote : String → List Nat)
    (encode : List Nat → List Nat) (tif_dir parquet_dir : String)
    (catalog : List (String × Nat)) (fs0 : FS)
    (hsize : ∀ e ∈ catalog, (remote e.1).length = e.2)
    (hcross : ∀ e ∈ catalog, ∀ e' ∈ catalog,
      tifPath tif_dir e.1 ≠ outPath parquet_dir e'.1)
    (hpair : List.Pairwise (fun a b => tifPath tif_dir a.1 ≠ tifPath tif_dir b.1 ∧
      outPath parquet_dir a.1 ≠ outPath parquet_dir b.1) catalog) :
    runPipeline remote encode tif_dir parquet_dir catalog
        (runPipeline remote encode tif_dir parquet_dir catalog fs0).1
      = ((runPipeline remote encode tif_dir parquet_dir catalog fs0).1, 0, 0) :=
  runPipeline_skip remote encode tif_dir parquet_dir catalog _
    (runPipeline_good remote encode tif_dir parquet_dir catalog fs0 hsize hcross hpair)

/-- C2 witness: a concrete two-tile catalog run twice from an empty local
filesystem; the second run is a pure skip. -/
theorem c2_second_run_pure_skip_witness :
    (∀ e ∈ [(("a/k1.tif" : String), 3), ("a/k2.tif", 2)],
      ((fun (k : String) => if k = "a/k1.tif" then [7, 7, 7] else [9, 9]) e.1).length = e.2) ∧
      runPipeline (fun k => if k = "a/k1.tif" then [7, 7, 7] else [9, 9]) (fun c => c)
          "tif" "parquet" [("a/k1.tif", 3), ("a/k2.tif", 2)]
          (runPipeline (fun k => if k = "a/k1.tif" then [7, 7, 7] else [9, 9]) (fun c => c)
            "tif" "parquet" [("a/k1.tif", 3), ("a/k2.tif", 2)] []).1
        = ((runPipeline (fun k => if k = "a/k1.tif" then [7, 7, 7] else [9, 9]) (fun c => c)
            "tif" "parquet" [("a/k1.tif", 3), ("a/k2.tif", 2)] []).1, 0, 0) :=
  ⟨by decide,
    c2_second_run_pure_skip (fun k => if k = "a/k1.tif" then [7, 7, 7] else [9, 9])
      (fun c => c) "tif" "parquet" [("a/k1.tif", 3), ("a/k2.tif", 2)] []
      (by decide) (by decide) (by decide)⟩

/-! ### Raster transform lemmas (C1, C5) -/

/-- The latitude column of `rows` processed rows has `W * rows` entries. -/
theorem transformRows_lat_length (gt : GeoTransform) (W : Nat) :
    ∀ (H y : Nat) (data : List Int), (transformRows gt W H y data).lat.length = W * H := by
  intro H
  induction H with
  | zero => intro y data; simp [transformRows]
  | succ H ih =>
    intro y data
    simp only [transformRows, List.length_append, List.length_map, List.length_range, ih]
    rw [Nat.mul_succ]
    omega

/-- The longitude column of `rows` processed rows has `W * rows` entries. -/
theorem transformRows_lon_length (gt : GeoTransform) (W : Nat) :
    ∀ (H y : Nat) (data : List Int), (transformRows gt W H y data).lon.length = W * H := by
  intro H
  induction H with
  | zero => intro y data; simp [transformRows]
  | succ H ih =>
    intro y data
    simp only [transformRows, List.length_append, List.length_map, List.length_range, ih]
    rw [Nat.mul_succ]
    omega

/-- The elevation column of `rows` processed rows has `W * rows` entries when
the data is long enough. -/
theorem transformRows_elev_length (gt : GeoTransform) (W : Nat) :
    ∀ (H y : Nat) (data : List Int), W * H ≤ data.length →
      (transformRows gt W H y data).elevation.length = W * H := by
  intro H
  induction H with
  | zero => intro y data _; simp [transformRows]
  | succ H ih =>
    intro y data hlen
    rw [Nat.mul_succ] at hlen
    have hW : W ≤ data.length := by omega
    simp only [transformRows, List.length_append, List.length_take]
    rw [ih (y + 1) (data.drop W) (by simp; omega)]
    rw [Nat.mul_succ]
    omega

/-- Latitude entry at row-major index `i * W + x`: the affine formula at
column `x`, row `y₀ + i`. -/
theorem transformRows_lat_get (gt : GeoTransform) (W : Nat) :
    ∀ (H y₀ : Nat) (data : List Int) (i x : Nat), i < H → x < W →
      (transformRows gt W H y₀ data).lat[i * W + x]?
        = some (gt.originY + (x : ℚ) * gt.rotY + ((y₀ + i : Nat) : ℚ) * gt.pxH) := by
  intro H
  induction H with
  | zero => intro y₀ data i x hi _; omega
  | succ H ih =>
    intro y₀ data i x hi hx
    cases i with
    | zero =>
      simp only [transformRows, Nat.zero_mul, Nat.zero_add]
      rw [List.getElem?_append_left (by simpa using hx)]
      rw [List.getElem?_map]
      rw [List.getElem?_range hx]
      simp
    | succ i =>
      have hidx : (i + 1) * W + x = W + (i * W + x) := by ring
      simp only [transformRows, hidx]
      rw [List.getElem?_append_right (by simp)]
      simp only [List.length_map, List.length_range, Nat.add_sub_cancel_left]
      rw [show y₀ + (i + 1) = (y₀ + 1) + i from by omega]
      exact ih (y₀ + 1) (data.drop W) i x (by omega) hx

/-- Longitude entry at row-major index `i * W + x`. -/
theorem transformRows_lon_get (gt : GeoTransform) (W : Nat) :
    ∀ (H y₀ : Nat) (data : List Int) (i x : Nat), i < H → x < W →
      (transformRows gt W H y₀ data).lon[i * W + x]?
        = some (gt.originX + (x : ℚ) * gt.pxW + ((y₀ + i : Nat) : ℚ) * gt.rotX) := by
  intro H
  induction H with
  | zero => intro y₀ data i x hi _; omega
  | succ H ih =>
    intro y₀ data i x hi hx
    cases i with
    | zero =>
      simp only [transformRows, Nat.zero_mul, Nat.zero_add]
      rw [List.getElem?_append_left (by simpa using hx)]
      rw [List.getElem?_map]
      rw [List.getElem?_range hx]
      simp
    | succ i =>
      have hidx : (i + 1) * W + x = W + (i * W + x) := by ring
      simp only [transformRows, hidx]
      rw [List.getElem?_append_right (by simp)]
      simp only [List.length_map, List.length_range, Nat.add_sub_cancel_left]
      rw [show y₀ + (i + 1) = (y₀ + 1) + i from by omega]
      exact ih (y₀ + 1) (data.drop W) i x (by omega) hx

/-- Elevation entry at row-major index `i * W + x`: the flat sample at the
same index. -/
theorem transformRows_elev_get (gt : GeoTransform) (W : Nat) :
    ∀ (H y₀ : Nat) (data : List Int) (i x : Nat), i < H → x < W →
      W * H ≤ data.length →
      (transformRows gt W H y₀ data).elevation[i * W + x]? = data[i * W + x]? := by
  intro H
  induction H with
  | zero => intro y₀ data i x hi _ _; omega
  | succ H ih =>
    intro y₀ data i x hi hx hlen
    rw [Nat.mul_succ] at hlen
    have hW : W ≤ data.length := by omega
    cases i with
    | zero =>
      simp only [transformRows, Nat.zero_mul, Nat.zero_add]
      rw [List.getElem?_append_left (by simp; omega)]
      exact List.getElem?_take_of_lt hx
    | succ i =>
      have hidx : (i + 1) * W + x = W + (i * W + x) := by ring
      simp only [transformRows, hidx]
      rw [List.getElem?_append_right (by simp only [List.length_take]; omega)]
      rw [List.length_take, Nat.min_eq_left hW, Nat.add_sub_cancel_left]
      rw [ih (y₀ + 1) (data.drop W) i x (by omega) hx (by simp; omega)]
      exact List.getElem?_drop data W (i * W + x)

/-- On a full raster (`data.length = W * H`, positive width) the chunk count
is exactly `H`. -/
theorem transform_eq_rows (gt : GeoTransform) (W H : Nat) (data : List Int)
    (hW : 0 < W) (hlen : data.length = W * H) :
    transform gt W data = transformRows gt W H 0 data := by
  unfold transform
  rw [hlen, Nat.mul_div_cancel_left H hW]

/-- C1: for every raster of width `W`, height `H` with affine transform
`(originX, pxW, rotX, originY, rotY, pxH)`, the transform computes
`lon = originX + x·pxW + y·rotX` and `lat = originY + x·rotY + y·pxH` for
the pixel at row `y`, column `x`, taking the elevation sample at flat index
`y·W + x`; in particular transform `(10, 1, 0, 50, 0, -1)` on a 2×1 raster
with samples `[100, 200]` yields `(lat 50, lon 10, elev 100)` at index 0 and
`(lat 50, lon 11, elev 200)` at index 1. -/
theorem c1_affine_reconstruction (gt : GeoTransform) (W H : Nat) (data : List Int)
    (hW : 0 < W) (hlen : data.length = W * H) :
    (∀ y x, y < H → x < W →
      (transform gt W data).lon[y * W + x]?
          = some (gt.originX + (x : ℚ) * gt.pxW + (y : ℚ) * gt.rotX) ∧
        (transform gt W data).lat[y * W + x]?
          = some (gt.originY + (x : ℚ) * gt.rotY + (y : ℚ) * gt.pxH) ∧
        (transform gt W data).elevation[y * W + x]? = data[y * W + x]?) ∧
      transform ⟨10, 1, 0, 50, 0, -1⟩ 2 [100, 200]
        = { lat := [50, 50], lon := [10, 11], elevation := [100, 200] } := by
  constructor
  · intro y x hy hx
    rw [transform_eq_rows gt W H data hW hlen]
    refine ⟨?_, ?_, ?_⟩
    · simpa using transformRows_lon_get gt W H 0 data y x hy hx
    · simpa using transformRows_lat_get gt W H 0 data y x hy hx
    · exact transformRows_elev_get gt W H 0 data y x hy hx (le_of_eq hlen.symm)
  · simp only [transform, transformRows, List.length_cons, List.length_nil]
    norm_num [List.range_succ]

/-- C1 witness: the claim's concrete scenario, with the raster-size
hypotheses discharged at width 2, height 1, samples `[100, 200]`. -/
theorem c1_affine_reconstruction_witness :
    0 < 2 ∧ ([(100 : Int), 200]).length = 2 * 1 ∧
      transform ⟨10, 1, 0, 50, 0, -1⟩ 2 [100, 200]
        = { lat := [50, 50], lon := [10, 11], elevation := [100, 200] } :=
  ⟨by decide, by decide,
    (c1_affine_reconstruction ⟨10, 1, 0, 50, 0, -1⟩ 2 1 [100, 200]
      (by decide) (by decide)).2⟩

/-- C5: the transform yields exactly three sequences, each of length
`W * H`, and for all `y < H`, `x < W` the entries at the row-major index
`i = y·W + x` in all three sequences describe the same physical pixel (its
affine latitude and longitude, and its flat elevation sample). -/
theorem c5_row_major_parallel (gt : GeoTransform) (W H : Nat) (data : List Int)
    (hW : 0 < W) (hlen : data.length = W * H) :
    (transform gt W data).lat.length = W * H ∧
      (transform gt W data).lon.length = W * H ∧
      (transform gt W data).elevation.length = W * H ∧
      ∀ y x, y < H → x < W →
        ((transform gt W data).lat[y * W + x]?
            = some (gt.originY + (x : ℚ) * gt.rotY + (y : ℚ) * gt.pxH) ∧
          (transform gt W data).lon[y * W + x]?
            = some (gt.originX + (x : ℚ) * gt.pxW + (y : ℚ) * gt.rotX) ∧
          (transform gt W data).elevation[y * W + x]? = data[y * W + x]?) := by
  rw [transform_eq_rows gt W H data hW hlen]
  refine ⟨transformRows_lat_length gt W H 0 data, transformRows_lon_length gt W H 0 data,
    transformRows_elev_length gt W H 0 data (le_of_eq hlen.symm), ?_⟩
  intro y x hy hx
  exact ⟨by simpa using transformRows_lat_get gt W H 0 data y x hy hx,
    by simpa using transformRows_lon_get gt W H 0 data y x hy hx,
    transformRows_elev_get gt W H 0 data y x hy hx (le_of_eq hlen.symm)⟩

/-- C5 witness: a 1×2 raster; lengths and the same-pixel property at row 1,
column 0, with the hypotheses discharged. -/
theorem c5_row_major_parallel_witness :
    (transform ⟨0, 1, 0, 0, 0, 1⟩ 1 [5, 6]).lat.length = 1 * 2 ∧
      (transform ⟨0, 1, 0, 0, 0, 1⟩ 1 [5, 6]).elevation[1 * 1 + 0]?
        = ([(5 : Int), 6])[1 * 1 + 0]? := by
  have h := c5_row_major_parallel ⟨0, 1, 0, 0, 0, 1⟩ 1 2 [5, 6] (by decide) (by decide)
  exact ⟨h.1, (h.2.2.2 1 0 (by decide) (by decide)).2.2⟩

end AW3D30
